import Mathlib

/-!
Verification of the Calendar Event Engine of the ProductivityApp repository.

The embedding covers the calendar route handlers (final revision in the
repository README: buildRecurrenceRule, buildEventTiming, shiftDateString,
ensureDateInput, the DELETE handler), the googleCalendar client wrappers
(listEvents, updateEvent) and the calendar module component logic
(parseRecurrenceRule, exclusiveDateToInput, handleEdit, handleSubmit,
confirmDelete, handleAllDayToggle, applyOptimisticDeletion, getEventDate).

The JavaScript Date runtime is modelled with a fixed UTC offset for the
running process: `o` is the value of getTimezoneOffset() in minutes, so the
UTC instant of local wall-clock time w is w + o.  Instants are counted in
minutes since the Unix epoch, calendar dates as proleptic Gregorian triples,
converted with the standard civil-from-days and days-from-civil algorithms
that the Date runtime implements.
-/

set_option autoImplicit false

namespace ProductivityApp

/-- A calendar date as the JS Date runtime sees it (proleptic Gregorian). -/
structure LocalDate where
  year : Int
  month : Int
  day : Int
deriving DecidableEq, Repr

/-- Days since 1970-01-01 of a civil date (the conversion inside the JS Date
runtime, standard era-based algorithm). -/
def daysFromCivil (v : LocalDate) : Int :=
  let y : Int := if v.month ≤ 2 then v.year - 1 else v.year
  let era : Int := (if 0 ≤ y then y else y - 399) / 400
  let yoe : Int := y - era * 400
  let doy : Int := (153 * (if 2 < v.month then v.month - 3 else v.month + 9) + 2) / 5 + v.day - 1
  let doe : Int := yoe * 365 + yoe / 4 - yoe / 100 + doy
  era * 146097 + doe - 719468

/-- Civil date of a count of days since 1970-01-01 (inverse conversion inside
the JS Date runtime). -/
def civilFromDays (z0 : Int) : LocalDate :=
  let z : Int := z0 + 719468
  let era : Int := (if 0 ≤ z then z else z - 146096) / 146097
  let doe : Int := z - era * 146097
  let yoe : Int := (doe - doe / 1460 + doe / 36524 - doe / 146096) / 365
  let y : Int := yoe + era * 400
  let doy : Int := doe - (365 * yoe + yoe / 4 - yoe / 100)
  let mp : Int := (5 * doy + 2) / 153
  let d : Int := doy - (153 * mp + 2) / 5 + 1
  let m : Int := if mp < 10 then mp + 3 else mp - 9
  { year := if m ≤ 2 then y + 1 else y, month := m, day := d }

/-- Instant (minutes since epoch, UTC) of new Date of a date string with a
T00:00:00 suffix: local midnight of that calendar date, in a process whose
getTimezoneOffset() is `o` minutes. -/
def parseLocalMidnight (o : Int) (v : LocalDate) : Int :=
  daysFromCivil v * 1440 + o

/-- Calendar date produced by toISOString followed by slice to the first ten
characters: the UTC calendar date of the instant. -/
def isoDateOfInstant (t : Int) : LocalDate :=
  civilFromDays (t.fdiv 1440)

/-- Calendar date produced by format with pattern yyyy-MM-dd: the local
calendar date of the instant in a process with offset `o`. -/
def localDateOfInstant (o : Int) (t : Int) : LocalDate :=
  civilFromDays ((t - o).fdiv 1440)

/-- shiftDateString from the final calendar route revision: parses the date
string at local midnight, moves the UTC day-of-month by `amount` via
setUTCDate (which adds exactly amount days to the instant), then renders the
UTC date via toISOString and slice. -/
def shiftDateString (o : Int) (v : LocalDate) (amount : Int) : LocalDate :=
  isoDateOfInstant (parseLocalMidnight o v + 1440 * amount)

/-- A wire start or end value of the calendar API: either a date-only value
or a dateTime instant. -/
inductive WireDateValue
  | date (d : LocalDate)
  | dateTime (t : Int)
deriving DecidableEq, Repr

/-- Wire timing pair produced by buildEventTiming. -/
structure WireTiming where
  start : WireDateValue
  end_ : WireDateValue
deriving DecidableEq, Repr

/-- The allDay branch of buildEventTiming in the final route revision:
ensureDateInput keeps the (valid) date values, the exclusive wire end date is
shiftDateString of the inclusive end by one day. -/
def buildEventTimingAllDay (o : Int) (startValue endValue : LocalDate) : WireTiming :=
  { start := WireDateValue.date startValue
    end_ := WireDateValue.date (shiftDateString o endValue 1) }

/-- dateStringToDate from the calendar module: new Date of the value with a
T00:00:00 suffix, parsed at local midnight. -/
def dateStringToDate (o : Int) (v : LocalDate) : Int :=
  parseLocalMidnight o v

/-- exclusiveDateToInput from the calendar module: parse the exclusive date at
local midnight, addDays by minus one (one exact day at a fixed offset), format
the local date. -/
def exclusiveDateToInput (o : Int) (v : LocalDate) : LocalDate :=
  localDateOfInstant o (dateStringToDate o v - 1440)

/-- Claim C2: counterexample evaluation.  In a process east of UTC
(getTimezoneOffset gives -60, for example UTC+1), an all-day event covering
exactly the single day 2024-03-10 is submitted with wire end date 2024-03-10,
the same day, not the required following day; at offset 0 the same call does
produce 2024-03-11.  The local-midnight parse combined with UTC rendering in
shiftDateString loses the day whenever the offset is negative. -/
theorem buildEventTimingAllDay_oneDay_eastOfUTC :
    buildEventTimingAllDay (-60) ⟨2024, 3, 10⟩ ⟨2024, 3, 10⟩ =
      { start := WireDateValue.date ⟨2024, 3, 10⟩
        end_ := WireDateValue.date ⟨2024, 3, 10⟩ } ∧
    shiftDateString (-60) ⟨2024, 3, 10⟩ 1 ≠ ⟨2024, 3, 11⟩ ∧
    shiftDateString 0 ⟨2024, 3, 10⟩ 1 = ⟨2024, 3, 11⟩ := by
  decide

/-- Claim C3: counterexample evaluation.  At offset -60 (UTC+1) the exclusive
wire conversion of 2024-03-10 followed by exclusiveDateToInput yields
2024-03-09, not 2024-03-10: the round trip loses a day east of UTC, while at
offset 0 it is the identity. -/
theorem exclusiveDate_roundTrip_eastOfUTC :
    exclusiveDateToInput (-60) (shiftDateString (-60) ⟨2024, 3, 10⟩ 1) = ⟨2024, 3, 9⟩ ∧
    (⟨2024, 3, 9⟩ : LocalDate) ≠ ⟨2024, 3, 10⟩ ∧
    exclusiveDateToInput 0 (shiftDateString 0 ⟨2024, 3, 10⟩ 1) = ⟨2024, 3, 10⟩ := by
  decide

/-- A start or end field of an event resource as the client sees it: optional
date-only part and optional dateTime part.  The dateTime denotes the instant
of the ISO string, the date the calendar date. -/
structure EventDateValue where
  date : Option LocalDate
  dateTime : Option Int
deriving DecidableEq, Repr

/-- An event resource as held in the calendar module state (the fields the
claims are about; the remaining text fields do not influence them). -/
structure CalendarEvent where
  id : String
  recurringEventId : Option String
  start : Option EventDateValue
  recurrence : Option (List String)
deriving DecidableEq, Repr

/-- The deletion scope chosen in the delete modal. -/
inductive DeleteScope
  | single
  | future
  | series
deriving DecidableEq, Repr

/-- The JSON body confirmDelete sends to DELETE.  The start field carries
whichever of dateTime or date is present on the target, as a raw value. -/
structure DeleteBody where
  scope : DeleteScope
  id : Option String
  recurringEventId : Option String
  start : Option (Int ⊕ LocalDate)
deriving DecidableEq, Repr

/-- The expression deleteTarget.start dateTime-or-else-date used by
confirmDelete when building the scope future body. -/
def startRaw (v : Option EventDateValue) : Option (Int ⊕ LocalDate) :=
  match v with
  | none => none
  | some w =>
    match w.dateTime with
    | some t => some (Sum.inl t)
    | none => w.date.map Sum.inr

/-- The request body built by confirmDelete for the chosen scope: single puts
the own id, series the recurringEventId falling back to the own id, future
puts recurringEventId plus the start value and no id at all. -/
def confirmDeleteBody (scope : DeleteScope) (target : CalendarEvent) : DeleteBody :=
  match scope with
  | DeleteScope.single =>
    { scope := scope, id := some target.id, recurringEventId := none, start := none }
  | DeleteScope.series =>
    { scope := scope, id := some (target.recurringEventId.getD target.id)
      recurringEventId := none, start := none }
  | DeleteScope.future =>
    { scope := scope, id := none
      recurringEventId := some (target.recurringEventId.getD target.id)
      start := startRaw target.start }

/-- JS truthiness of an optional string: absent and empty are falsy. -/
def strTruthy (s : Option String) : Bool :=
  match s with
  | none => false
  | some v => v != ""

/-- The client-side validation in confirmDelete before the request is sent:
single and series need a truthy id, future needs a truthy recurringEventId
and a present start. -/
def confirmDeleteClientValid (b : DeleteBody) : Bool :=
  match b.scope with
  | DeleteScope.future => strTruthy b.recurringEventId && b.start.isSome
  | _ => strTruthy b.id

/-- Outcome of the DELETE route handler (credentials configured). -/
inductive DeleteResponse
  | okTrue (deletedId : String)
  | badRequest (msg : String)
deriving DecidableEq, Repr

/-- The DELETE handler of the final calendar route revision: it reads only
body id; a falsy id is answered with status 400, otherwise deleteEvent is
called on that id and ok true is returned.  The scope, recurringEventId and
start fields of the body are never read. -/
def eventsDELETE (body : Option DeleteBody) : DeleteResponse :=
  match body with
  | none => DeleteResponse.badRequest "id is required"
  | some b =>
    match b.id with
    | some i =>
      if i = "" then DeleteResponse.badRequest "id is required"
      else DeleteResponse.okTrue i
    | none => DeleteResponse.badRequest "id is required"

/-- A concrete expanded occurrence of series S1, as the delete modal would
target it for a scope future deletion. -/
def sampleFutureTarget : CalendarEvent :=
  { id := "S1-20240601", recurringEventId := some "S1"
    start := some { date := none, dateTime := some 100 }, recurrence := none }

/-- Claim C1: counterexample evaluation.  A scope future deletion request
built by the client carries the required identifiers for that scope (a truthy
recurringEventId and the boundary start) and passes the client-side check,
yet the DELETE handler answers 400 with the message id is required, because
it only ever reads the id field and confirmDelete sends no id for scope
future.  No truncate-forward deletion is performed. -/
theorem eventsDELETE_future_rejected :
    confirmDeleteClientValid (confirmDeleteBody DeleteScope.future sampleFutureTarget) = true ∧
    (confirmDeleteBody DeleteScope.future sampleFutureTarget).recurringEventId = some "S1" ∧
    (confirmDeleteBody DeleteScope.future sampleFutureTarget).start = some (Sum.inl 100) ∧
    eventsDELETE (some (confirmDeleteBody DeleteScope.future sampleFutureTarget)) =
      DeleteResponse.badRequest "id is required" := by
  decide

/-- getEventDate from the calendar module: the display anchor of a start or
end value.  A present dateTime is the instant itself; a date-only value is
anchored at local noon of that calendar date (new Date of the date with a
T12:00:00 suffix, in a process with offset `o`); otherwise there is no
anchor. -/
def getEventDate (o : Int) (value : Option EventDateValue) : Option Int :=
  match value with
  | none => none
  | some v =>
    match v.dateTime, v.date with
    | some t, _ => some t
    | none, some d => some (daysFromCivil d * 1440 + 720 + o)
    | none, none => none

/-- applyOptimisticDeletion from the calendar module: filters the local event
list according to the chosen scope, the delete target and the boundary
anchor computed by confirmDelete. -/
def applyOptimisticDeletion (o : Int) (scope : DeleteScope) (target : CalendarEvent)
    (boundaryDate : Option Int) (events : List CalendarEvent) : List CalendarEvent :=
  events.filter fun event =>
    match scope with
    | DeleteScope.single => event.id != target.id
    | DeleteScope.series =>
      match target.recurringEventId with
      | none => event.id != target.id
      | some seriesId => event.recurringEventId != some seriesId && event.id != seriesId
    | DeleteScope.future =>
      match target.recurringEventId with
      | none => event.id != target.id
      | some seriesId =>
        if event.recurringEventId != some seriesId then true
        else
          match boundaryDate with
          | none => event.id != target.id
          | some b =>
            match getEventDate o event.start with
            | none => true
            | some t => decide (t < b)

/-- The removal predicate claimed for a scope future deletion in series S1
with boundary anchor t: member of S1 with a present anchor at or after t. -/
def futureRemoves (o : Int) (t : Int) (event : CalendarEvent) : Bool :=
  event.recurringEventId == some "S1" &&
    match getEventDate o event.start with
    | some a => decide (t ≤ a)
    | none => false

/-- Claim C7: a scope future deletion on an occurrence of series S1 whose
boundary anchor is t filters the local list to exactly the events that are
not removed by futureRemoves: every occurrence of S1 anchored at or after t
is dropped, earlier occurrences of S1, events of other series and events
without an anchor are retained in order. -/
theorem applyOptimisticDeletion_future_filter (o : Int) (events : List CalendarEvent)
    (target : CalendarEvent) (t : Int)
    (hs : target.recurringEventId = some "S1")
    (hb : getEventDate o target.start = some t) :
    applyOptimisticDeletion o DeleteScope.future target (getEventDate o target.start) events =
      events.filter fun e => !(futureRemoves o t e) := by
  rw [hb]
  unfold applyOptimisticDeletion
  refine List.filter_congr ?_
  intro e _
  by_cases h1 : e.recurringEventId = some "S1"
  · cases hg : getEventDate o e.start with
    | none => simp [futureRemoves, hs, h1, hg]
    | some a =>
      simp only [futureRemoves, hs, h1, hg, bne_self_eq_false, Bool.false_eq_true,
        if_false, beq_self_eq_true, Bool.true_and]
      by_cases h2 : t ≤ a
      · simp [h2]
      · simp [h2]
        omega
  · simp [futureRemoves, hs, h1, bne]

/-- A small local list: two occurrences of S1 on either side of the boundary,
one foreign event and one S1 occurrence without an anchor. -/
def sampleEvents : List CalendarEvent :=
  [ { id := "S1-a", recurringEventId := some "S1"
      start := some { date := none, dateTime := some 50 }, recurrence := none }
  , sampleFutureTarget
  , { id := "S1-b", recurringEventId := some "S1"
      start := some { date := none, dateTime := some 150 }, recurrence := none }
  , { id := "T2", recurringEventId := some "S2"
      start := some { date := none, dateTime := some 150 }, recurrence := none }
  , { id := "S1-c", recurringEventId := some "S1", start := none, recurrence := none } ]

/-- Witness for claim C7 at a concrete list and target. -/
theorem applyOptimisticDeletion_future_filter_witness :
    applyOptimisticDeletion 0 DeleteScope.future sampleFutureTarget
        (getEventDate 0 sampleFutureTarget.start) sampleEvents =
      sampleEvents.filter fun e => !(futureRemoves 0 100 e) :=
  applyOptimisticDeletion_future_filter 0 sampleEvents sampleFutureTarget 100 rfl rfl

/-- A draft start or end input value: the empty string, a ten character
date-only string, or a sixteen character local date-time string (date plus
minutes of the day). -/
inductive EditValue
  | empty
  | dateOnly (d : LocalDate)
  | dateTime (d : LocalDate) (minutes : Nat)
deriving DecidableEq, Repr

/-- The recurrence frequency enum of the calendar module. -/
inductive RecurrenceFrequency
  | none
  | daily
  | weekly
  | monthly
deriving DecidableEq, Repr

/-- The NewEventState draft of the calendar module composer. -/
structure NewEventState where
  summary : String
  description : String
  start : EditValue
  end_ : EditValue
  allDay : Bool
  recurrenceFrequency : RecurrenceFrequency
  recurrenceInterval : Nat
deriving DecidableEq, Repr

/-- ensureDateInputFormat from the calendar module: an empty value becomes
the fallback date (today), a value longer than ten characters is parsed and
reformatted to its date component, a date-only value is returned as is. -/
def ensureDateInputFormat (value : EditValue) (fallback : LocalDate) : LocalDate :=
  match value with
  | EditValue.empty => fallback
  | EditValue.dateTime d _ => d
  | EditValue.dateOnly d => d

/-- JS string disjunction on edit values: the left operand unless it is the
empty string. -/
def jsOrEdit (a b : EditValue) : EditValue :=
  if a = EditValue.empty then b else a

/-- The checked branch of handleAllDayToggle: both base values are pushed
through ensureDateInputFormat with today as fallback, start becomes the base
start and end becomes the base end or else the base start. -/
def handleAllDayToggleOn (prev : NewEventState) (today : LocalDate) : NewEventState :=
  let baseStart := EditValue.dateOnly (ensureDateInputFormat prev.start today)
  let baseEnd := EditValue.dateOnly (ensureDateInputFormat prev.end_ today)
  { prev with allDay := true, start := baseStart, end_ := jsOrEdit baseEnd baseStart }

/-- A draft holding a timed event on 2024-02-01 with an empty end field. -/
def sampleToggleDraft : NewEventState :=
  { summary := "t", description := "", start := EditValue.dateTime ⟨2024, 2, 1⟩ 870
    end_ := EditValue.empty, allDay := false
    recurrenceFrequency := RecurrenceFrequency.none, recurrenceInterval := 1 }

/-- Claim C8: counterexample.  Toggling all-day on with an empty end while
the start is 2024-02-01T14:30 yields the end today (2026-10-11 here), not the
start date 2024-02-01: the or-else-start default never fires because the
fallback already produced a non-empty date. -/
theorem handleAllDayToggleOn_emptyEnd_counterexample :
    (handleAllDayToggleOn sampleToggleDraft ⟨2026, 10, 11⟩).end_ =
      EditValue.dateOnly ⟨2026, 10, 11⟩ ∧
    (handleAllDayToggleOn sampleToggleDraft ⟨2026, 10, 11⟩).end_ ≠
      EditValue.dateOnly ⟨2024, 2, 1⟩ := by
  decide

/-- Claim C8 as amended: toggling all-day on truncates both start and end to
their date components, an empty start or end falling back to today; the end
default to the start never applies, so an empty end becomes today, and in
particular a draft with start 2024-02-01T14:30 and end 2024-02-01T15:00
yields start and end 2024-02-01. -/
theorem handleAllDayToggleOn_spec :
    (∀ (prev : NewEventState) (today : LocalDate),
      handleAllDayToggleOn prev today =
        { prev with
          allDay := true,
          start := EditValue.dateOnly (ensureDateInputFormat prev.start today),
          end_ := EditValue.dateOnly (ensureDateInputFormat prev.end_ today) }) ∧
    (handleAllDayToggleOn
        { sampleToggleDraft with end_ := EditValue.dateTime ⟨2024, 2, 1⟩ 900 }
        ⟨2026, 10, 11⟩).start = EditValue.dateOnly ⟨2024, 2, 1⟩ ∧
    (handleAllDayToggleOn
        { sampleToggleDraft with end_ := EditValue.dateTime ⟨2024, 2, 1⟩ 900 }
        ⟨2026, 10, 11⟩).end_ = EditValue.dateOnly ⟨2024, 2, 1⟩ := by
  refine ⟨fun prev today => ?_, by decide, by decide⟩
  simp [handleAllDayToggleOn, jsOrEdit]

/-- handleEdit from the calendar module: the id the edit composer targets is
the recurringEventId when present, the own id otherwise. -/
def handleEditTargetId (event : CalendarEvent) : String :=
  event.recurringEventId.getD event.id

/-- The wire recurrence payload handleSubmit attaches to a request. -/
structure WireRecurrence where
  frequency : String
  interval : Nat
deriving DecidableEq, Repr

/-- The string value of a recurrence frequency in the draft state. -/
def frequencyName (f : RecurrenceFrequency) : String :=
  match f with
  | RecurrenceFrequency.none => "none"
  | RecurrenceFrequency.daily => "daily"
  | RecurrenceFrequency.weekly => "weekly"
  | RecurrenceFrequency.monthly => "monthly"

/-- The recurrence part of the handleSubmit body: null when the draft
frequency is none, otherwise the frequency name and interval. -/
def recurrencePayload (draft : NewEventState) : Option WireRecurrence :=
  if draft.recurrenceFrequency = RecurrenceFrequency.none then none
  else some { frequency := frequencyName draft.recurrenceFrequency
              interval := draft.recurrenceInterval }

/-- The JSON body built by handleSubmit: the draft fields, the recurrence
payload, and the id exactly when an edit is in progress. -/
structure SubmitBody where
  summary : String
  description : String
  start : EditValue
  end_ : EditValue
  allDay : Bool
  recurrence : Option WireRecurrence
  id : Option String
deriving DecidableEq, Repr

/-- handleSubmit body construction from a draft and the editing id. -/
def handleSubmitBody (editingId : Option String) (draft : NewEventState) : SubmitBody :=
  { summary := draft.summary, description := draft.description
    start := draft.start, end_ := draft.end_, allDay := draft.allDay
    recurrence := recurrencePayload draft, id := editingId }

/-- handleSubmit request method: PUT when editing, POST otherwise. -/
def handleSubmitMethod (editingId : Option String) : String :=
  if editingId.isSome then "PUT" else "POST"

/-- Claim C6: an edit started on an event carrying recurringEventId S1
produces an update request whose target id is S1, the series master, and the
method is PUT; editing a non-recurring event targets the own id. -/
theorem handleEdit_targets_master (event : CalendarEvent) (draft : NewEventState) :
    (event.recurringEventId = some "S1" →
      (handleSubmitBody (some (handleEditTargetId event)) draft).id = some "S1") ∧
    (event.recurringEventId = Option.none →
      (handleSubmitBody (some (handleEditTargetId event)) draft).id = some event.id) ∧
    handleSubmitMethod (some (handleEditTargetId event)) = "PUT" := by
  refine ⟨fun h => ?_, fun h => ?_, rfl⟩ <;>
    simp [handleSubmitBody, handleEditTargetId, h]

/-- Witness for claim C6: an occurrence of S1 with its own per-instance id,
and a non-recurring event. -/
theorem handleEdit_targets_master_witness :
    (handleSubmitBody (some (handleEditTargetId sampleFutureTarget))
        sampleToggleDraft).id = some "S1" ∧
    (handleSubmitBody
        (some (handleEditTargetId
          { id := "E9", recurringEventId := none, start := none, recurrence := none }))
        sampleToggleDraft).id = some "E9" :=
  ⟨(handleEdit_targets_master sampleFutureTarget sampleToggleDraft).1 rfl,
   (handleEdit_targets_master
      { id := "E9", recurringEventId := none, start := none, recurrence := none }
      sampleToggleDraft).2.1 rfl⟩

/-- Parameters of the googleCalendar listEvents wrapper. -/
structure ListEventsParams where
  timeMin : String
  timeMax : String
  maxResults : Option Nat
deriving DecidableEq, Repr

/-- listEvents from the googleCalendar wrapper: the events.list call is made
with maxResults defaulted to 25 when absent, and the remote service returns
at most that many of the expanded occurrences of the window (modelled as a
take on the upstream list, the documented cap semantics of the list call; the
wrapper never paginates). -/
def listEvents (upstream : List CalendarEvent) (params : ListEventsParams) :
    List CalendarEvent :=
  upstream.take (params.maxResults.getD 25)

/-- The calendar route GET handler invocation of listEvents: only timeMin and
timeMax are passed, never maxResults; this is the only caller of listEvents
in the repository. -/
def routeListEvents (upstream : List CalendarEvent) (timeMin timeMax : String) :
    List CalendarEvent :=
  listEvents upstream { timeMin := timeMin, timeMax := timeMax, maxResults := none }

/-- Claim C9: the effective maxResults of a route query is 25, every answered
list holds at most 25 events, and a window with more than 25 expanded
occurrences has events silently dropped. -/
theorem routeListEvents_caps_at_25 (upstream : List CalendarEvent)
    (timeMin timeMax : String) :
    ({ timeMin := timeMin, timeMax := timeMax
       maxResults := none : ListEventsParams }).maxResults.getD 25 = 25 ∧
    (routeListEvents upstream timeMin timeMax).length ≤ 25 ∧
    (25 < upstream.length →
      (routeListEvents upstream timeMin timeMax).length < upstream.length) := by
  refine ⟨rfl, ?_, fun h => ?_⟩
  · simp [routeListEvents, listEvents]
  · simp [routeListEvents, listEvents]
    omega

/-- Witness for claim C9: a window of 26 occurrences loses one. -/
theorem routeListEvents_caps_at_25_witness :
    (routeListEvents (List.replicate 26 sampleFutureTarget) "tmin" "tmax").length ≤ 25 ∧
    (routeListEvents (List.replicate 26 sampleFutureTarget) "tmin" "tmax").length <
      (List.replicate 26 sampleFutureTarget).length :=
  ⟨(routeListEvents_caps_at_25 (List.replicate 26 sampleFutureTarget) "tmin" "tmax").2.1,
   (routeListEvents_caps_at_25 (List.replicate 26 sampleFutureTarget) "tmin" "tmax").2.2
     (by decide)⟩

/-- JS disjunction with one on a number: zero is falsy and becomes one. -/
def jsOr1 (n : Nat) : Nat :=
  if n = 0 then 1 else n

/-- toUpperCase on one character. -/
def toUpperChar (c : Char) : Char :=
  if 'a' ≤ c ∧ c ≤ 'z' then Char.ofNat (c.toNat - 32) else c

/-- The literal head of the generated rule string. -/
def rruleFreqHead : List Char :=
  ['R', 'R', 'U', 'L', 'E', ':', 'F', 'R', 'E', 'Q', '=']

/-- The literal middle part of the generated rule string. -/
def rruleIntervalHead : List Char :=
  [';', 'I', 'N', 'T', 'E', 'R', 'V', 'A', 'L', '=']

/-- The literal part of the FREQ pattern. -/
def freqPat : List Char :=
  ['F', 'R', 'E', 'Q', '=']

/-- The literal part of the INTERVAL pattern. -/
def intervalPat : List Char :=
  ['I', 'N', 'T', 'E', 'R', 'V', 'A', 'L', '=']

/-- The decimal digit character of a value below ten. -/
def digitChar (k : Nat) : Char :=
  if k = 0 then '0'
  else if k = 1 then '1'
  else if k = 2 then '2'
  else if k = 3 then '3'
  else if k = 4 then '4'
  else if k = 5 then '5'
  else if k = 6 then '6'
  else if k = 7 then '7'
  else if k = 8 then '8'
  else '9'

/-- Decimal rendering worker with structural fuel; the fuel is always large
enough, since the value drops by a factor of ten per step. -/
def natToDigitsAux (fuel n : Nat) : List Char :=
  match fuel with
  | 0 => []
  | fuel + 1 =>
    if n < 10 then [digitChar n]
    else natToDigitsAux fuel (n / 10) ++ [digitChar (n % 10)]

/-- Decimal rendering of a number, as template interpolation does. -/
def natToDigits (n : Nat) : List Char :=
  natToDigitsAux (n + 1) n

/-- buildRecurrenceRule from the calendar route: uppercase the frequency,
keep it only when it is one of the three recognized values, clamp the
interval below by one, and interpolate both into the rule template. -/
def buildRecurrenceRule (recurrence : Option WireRecurrence) : Option String :=
  match recurrence with
  | none => none
  | some r =>
    let freq := r.frequency.toList.map toUpperChar
    if freq = ['D', 'A', 'I', 'L', 'Y'] ∨ freq = ['W', 'E', 'E', 'K', 'L', 'Y'] ∨
        freq = ['M', 'O', 'N', 'T', 'H', 'L', 'Y'] then
      some (String.mk (rruleFreqHead ++ freq ++ rruleIntervalHead ++
        natToDigits (max 1 (jsOr1 r.interval))))
    else none

/-- Literal pattern removal: strips pat from the head of the list. -/
def dropPat (pat s : List Char) : Option (List Char) :=
  match pat, s with
  | [], rest => some rest
  | _ :: _, [] => none
  | p :: ps, c :: cs => if c = p then dropPat ps cs else none

/-- The regex search of a literal pattern followed by a non-empty greedy
character class capture: scan left to right; at the first position where the
literal matches and at least one class character follows, capture the maximal
class run; otherwise keep scanning. -/
def matchCapture (pat : List Char) (cls : Char → Bool) : List Char → Option (List Char)
  | [] => none
  | c :: cs =>
    match dropPat pat (c :: cs) with
    | some (r :: rest) =>
      if cls r then some (List.takeWhile cls (r :: rest)) else matchCapture pat cls cs
    | _ => matchCapture pat cls cs

/-- The character class of the FREQ capture. -/
def isUpperAZ (c : Char) : Bool :=
  decide ('A' ≤ c ∧ c ≤ 'Z')

/-- The character class of the INTERVAL capture. -/
def isDigitCh (c : Char) : Bool :=
  decide ('0' ≤ c ∧ c ≤ '9')

/-- Number on a captured digit string. -/
def digitsToNat (ds : List Char) : Nat :=
  ds.foldl (fun a c => a * 10 + (c.toNat - 48)) 0

/-- The decoded recurrence structure of the calendar module. -/
structure ParsedRecurrence where
  frequency : RecurrenceFrequency
  interval : Nat
deriving DecidableEq, Repr

/-- The Number of the INTERVAL capture when it matches, one otherwise. -/
def parseIntervalValue (s : List Char) : Nat :=
  match matchCapture intervalPat isDigitCh s with
  | some ds => digitsToNat ds
  | none => 1

/-- The switch of parseRecurrenceRule on the FREQ capture, with the interval
value already computed; every interval is guarded by the falsy-or-one
default, and an unrecognized or missing FREQ yields the none result. -/
def parseFromCaptures (freqValue : Option (List Char)) (intervalValue : Nat) :
    ParsedRecurrence :=
  match freqValue with
  | some f =>
    if f = ['D', 'A', 'I', 'L', 'Y'] then
      { frequency := RecurrenceFrequency.daily, interval := jsOr1 intervalValue }
    else if f = ['W', 'E', 'E', 'K', 'L', 'Y'] then
      { frequency := RecurrenceFrequency.weekly, interval := jsOr1 intervalValue }
    else if f = ['M', 'O', 'N', 'T', 'H', 'L', 'Y'] then
      { frequency := RecurrenceFrequency.monthly, interval := jsOr1 intervalValue }
    else { frequency := RecurrenceFrequency.none, interval := 1 }
  | none => { frequency := RecurrenceFrequency.none, interval := 1 }

/-- parseRecurrenceRule on the characters of a present rule string: the empty
string is falsy and decodes to the none result, otherwise the two regex
captures are combined. -/
def parseRecurrenceChars (s : List Char) : ParsedRecurrence :=
  match s with
  | [] => { frequency := RecurrenceFrequency.none, interval := 1 }
  | c :: cs =>
    parseFromCaptures (matchCapture freqPat isUpperAZ (c :: cs))
      (parseIntervalValue (c :: cs))

/-- parseRecurrenceRule from the calendar module: an absent rule decodes to
the none result, a present one is decoded from its characters. -/
def parseRecurrenceRule (rule : Option String) : ParsedRecurrence :=
  match rule with
  | none => { frequency := RecurrenceFrequency.none, interval := 1 }
  | some r => parseRecurrenceChars r.toList

lemma isDigitCh_digitChar (k : Nat) : isDigitCh (digitChar k) = true := by
  unfold digitChar
  split_ifs <;> decide

lemma digitChar_toNat (k : Nat) (h : k < 10) : (digitChar k).toNat - 48 = k := by
  interval_cases k <;> decide

lemma natToDigitsAux_ne_nil (fuel n : Nat) (h : n < fuel) : natToDigitsAux fuel n ≠ [] := by
  cases fuel with
  | zero => omega
  | succ fuel =>
    unfold natToDigitsAux
    split_ifs <;> simp

lemma natToDigitsAux_digits (fuel : Nat) :
    ∀ n c, c ∈ natToDigitsAux fuel n → isDigitCh c = true := by
  induction fuel with
  | zero => intro n c hc; simp [natToDigitsAux] at hc
  | succ fuel ih =>
    intro n c hc
    unfold natToDigitsAux at hc
    by_cases h10 : n < 10
    · rw [if_pos h10] at hc
      simp at hc
      rw [hc]
      exact isDigitCh_digitChar n
    · rw [if_neg h10] at hc
      simp at hc
      rcases hc with hc | hc
      · exact ih (n / 10) c hc
      · rw [hc]
        exact isDigitCh_digitChar (n % 10)

lemma digitsToNat_append (ds : List Char) (c : Char) :
    digitsToNat (ds ++ [c]) = digitsToNat ds * 10 + (c.toNat - 48) := by
  simp [digitsToNat, List.foldl_append]

lemma natToDigitsAux_roundTrip (fuel : Nat) :
    ∀ n, n < fuel → digitsToNat (natToDigitsAux fuel n) = n := by
  induction fuel with
  | zero => intro n h; omega
  | succ fuel ih =>
    intro n h
    unfold natToDigitsAux
    by_cases h10 : n < 10
    · rw [if_pos h10]
      have : digitsToNat [digitChar n] = (digitChar n).toNat - 48 := by
        simp [digitsToNat]
      rw [this, digitChar_toNat n h10]
    · rw [if_neg h10, digitsToNat_append, ih (n / 10) (by omega),
        digitChar_toNat (n % 10) (by omega)]
      omega

lemma natToDigits_ne_nil (n : Nat) : natToDigits n ≠ [] :=
  natToDigitsAux_ne_nil (n + 1) n (by omega)

lemma natToDigits_digits (n : Nat) : ∀ c ∈ natToDigits n, isDigitCh c = true :=
  fun c hc => natToDigitsAux_digits (n + 1) n c hc

lemma digitsToNat_natToDigits (n : Nat) : digitsToNat (natToDigits n) = n :=
  natToDigitsAux_roundTrip (n + 1) n (by omega)

lemma takeWhile_of_all {p : Char → Bool} (l : List Char) (h : ∀ c ∈ l, p c = true) :
    List.takeWhile p l = l := by
  induction l with
  | nil => rfl
  | cons c cs ih =>
    rw [List.takeWhile_cons, if_pos (h c (by simp))]
    rw [ih fun x hx => h x (by simp [hx])]

lemma upper_daily : "daily".toList.map toUpperChar = ['D', 'A', 'I', 'L', 'Y'] := by
  decide

lemma upper_weekly : "weekly".toList.map toUpperChar = ['W', 'E', 'E', 'K', 'L', 'Y'] := by
  decide

lemma upper_monthly : "monthly".toList.map toUpperChar = ['M', 'O', 'N', 'T', 'H', 'L', 'Y'] := by
  decide

lemma freqCapture_daily (tail : List Char) :
    matchCapture freqPat isUpperAZ
        (rruleFreqHead ++ ['D', 'A', 'I', 'L', 'Y'] ++ rruleIntervalHead ++ tail) =
      some ['D', 'A', 'I', 'L', 'Y'] := by
  simp [rruleFreqHead, rruleIntervalHead, freqPat, matchCapture, dropPat, List.takeWhile,
    isUpperAZ]

lemma freqCapture_weekly (tail : List Char) :
    matchCapture freqPat isUpperAZ
        (rruleFreqHead ++ ['W', 'E', 'E', 'K', 'L', 'Y'] ++ rruleIntervalHead ++ tail) =
      some ['W', 'E', 'E', 'K', 'L', 'Y'] := by
  simp [rruleFreqHead, rruleIntervalHead, freqPat, matchCapture, dropPat, List.takeWhile,
    isUpperAZ]

lemma freqCapture_monthly (tail : List Char) :
    matchCapture freqPat isUpperAZ
        (rruleFreqHead ++ ['M', 'O', 'N', 'T', 'H', 'L', 'Y'] ++ rruleIntervalHead ++ tail) =
      some ['M', 'O', 'N', 'T', 'H', 'L', 'Y'] := by
  simp [rruleFreqHead, rruleIntervalHead, freqPat, matchCapture, dropPat, List.takeWhile,
    isUpperAZ]

lemma intervalCapture_daily (ds : List Char) (h1 : ds ≠ [])
    (h2 : ∀ c ∈ ds, isDigitCh c = true) :
    matchCapture intervalPat isDigitCh
        (rruleFreqHead ++ ['D', 'A', 'I', 'L', 'Y'] ++ rruleIntervalHead ++ ds) =
      some ds := by
  cases ds with
  | nil => exact absurd rfl h1
  | cons c cs =>
    have hc : isDigitCh c = true := h2 c (by simp)
    have ht : List.takeWhile isDigitCh (c :: cs) = c :: cs := takeWhile_of_all _ h2
    simp [rruleFreqHead, rruleIntervalHead, intervalPat, matchCapture, dropPat, hc, ht]

lemma intervalCapture_weekly (ds : List Char) (h1 : ds ≠ [])
    (h2 : ∀ c ∈ ds, isDigitCh c = true) :
    matchCapture intervalPat isDigitCh
        (rruleFreqHead ++ ['W', 'E', 'E', 'K', 'L', 'Y'] ++ rruleIntervalHead ++ ds) =
      some ds := by
  cases ds with
  | nil => exact absurd rfl h1
  | cons c cs =>
    have hc : isDigitCh c = true := h2 c (by simp)
    have ht : List.takeWhile isDigitCh (c :: cs) = c :: cs := takeWhile_of_all _ h2
    simp [rruleFreqHead, rruleIntervalHead, intervalPat, matchCapture, dropPat, hc, ht]

lemma intervalCapture_monthly (ds : List Char) (h1 : ds ≠ [])
    (h2 : ∀ c ∈ ds, isDigitCh c = true) :
    matchCapture intervalPat isDigitCh
        (rruleFreqHead ++ ['M', 'O', 'N', 'T', 'H', 'L', 'Y'] ++ rruleIntervalHead ++ ds) =
      some ds := by
  cases ds with
  | nil => exact absurd rfl h1
  | cons c cs =>
    have hc : isDigitCh c = true := h2 c (by simp)
    have ht : List.takeWhile isDigitCh (c :: cs) = c :: cs := takeWhile_of_all _ h2
    simp [rruleFreqHead, rruleIntervalHead, intervalPat, matchCapture, dropPat, hc, ht]

lemma parseRecurrenceChars_of_ne_nil (s : List Char) (h : s ≠ []) :
    parseRecurrenceChars s =
      parseFromCaptures (matchCapture freqPat isUpperAZ s) (parseIntervalValue s) := by
  cases s with
  | nil => exact absurd rfl h
  | cons c cs => rfl

/-- Claim C4: for every legal recurrence with a frequency among daily, weekly
and monthly and an integer interval of at least one, decoding the encoded
wire string restores the recurrence exactly. -/
theorem parse_build_roundTrip (f : RecurrenceFrequency) (n : Nat)
    (hf : f ≠ RecurrenceFrequency.none) (hn : 1 ≤ n) :
    parseRecurrenceRule
        (buildRecurrenceRule (some { frequency := frequencyName f, interval := n })) =
      { frequency := f, interval := n } := by
  have hj : jsOr1 n = n := by
    unfold jsOr1
    rw [if_neg (by omega)]
  have hmax : max 1 (jsOr1 n) = n := by
    rw [hj]
    omega
  cases f with
  | none => exact absurd rfl hf
  | daily =>
    have hb : buildRecurrenceRule
        (some { frequency := frequencyName RecurrenceFrequency.daily, interval := n }) =
        some (String.mk (rruleFreqHead ++ ['D', 'A', 'I', 'L', 'Y'] ++ rruleIntervalHead ++
          natToDigits n)) := by
      simp only [buildRecurrenceRule, frequencyName, upper_daily, hmax]
      rw [if_pos (Or.inl trivial)]
    rw [hb]
    show parseRecurrenceChars
        (rruleFreqHead ++ ['D', 'A', 'I', 'L', 'Y'] ++ rruleIntervalHead ++ natToDigits n) = _
    rw [parseRecurrenceChars_of_ne_nil _ (by simp [rruleFreqHead])]
    rw [freqCapture_daily]
    unfold parseIntervalValue
    rw [intervalCapture_daily _ (natToDigits_ne_nil n) (natToDigits_digits n)]
    simp [parseFromCaptures, digitsToNat_natToDigits, hj]
  | weekly =>
    have hb : buildRecurrenceRule
        (some { frequency := frequencyName RecurrenceFrequency.weekly, interval := n }) =
        some (String.mk (rruleFreqHead ++ ['W', 'E', 'E', 'K', 'L', 'Y'] ++ rruleIntervalHead ++
          natToDigits n)) := by
      simp only [buildRecurrenceRule, frequencyName, upper_weekly, hmax]
      rw [if_pos (Or.inr (Or.inl trivial))]
    rw [hb]
    show parseRecurrenceChars
        (rruleFreqHead ++ ['W', 'E', 'E', 'K', 'L', 'Y'] ++ rruleIntervalHead ++
          natToDigits n) = _
    rw [parseRecurrenceChars_of_ne_nil _ (by simp [rruleFreqHead])]
    rw [freqCapture_weekly]
    unfold parseIntervalValue
    rw [intervalCapture_weekly _ (natToDigits_ne_nil n) (natToDigits_digits n)]
    simp [parseFromCaptures, digitsToNat_natToDigits, hj]
  | monthly =>
    have hb : buildRecurrenceRule
        (some { frequency := frequencyName RecurrenceFrequency.monthly, interval := n }) =
        some (String.mk (rruleFreqHead ++ ['M', 'O', 'N', 'T', 'H', 'L', 'Y'] ++
          rruleIntervalHead ++ natToDigits n)) := by
      simp only [buildRecurrenceRule, frequencyName, upper_monthly, hmax]
      rw [if_pos (Or.inr (Or.inr trivial))]
    rw [hb]
    show parseRecurrenceChars
        (rruleFreqHead ++ ['M', 'O', 'N', 'T', 'H', 'L', 'Y'] ++ rruleIntervalHead ++
          natToDigits n) = _
    rw [parseRecurrenceChars_of_ne_nil _ (by simp [rruleFreqHead])]
    rw [freqCapture_monthly]
    unfold parseIntervalValue
    rw [intervalCapture_monthly _ (natToDigits_ne_nil n) (natToDigits_digits n)]
    simp [parseFromCaptures, digitsToNat_natToDigits, hj]

/-- Witness for claim C4 at weekly with interval three. -/
theorem parse_build_roundTrip_witness :
    parseRecurrenceRule
        (buildRecurrenceRule
          (some { frequency := frequencyName RecurrenceFrequency.weekly, interval := 3 })) =
      { frequency := RecurrenceFrequency.weekly, interval := 3 } :=
  parse_build_roundTrip RecurrenceFrequency.weekly 3 (by decide) (by decide)

/-- Whether an input carries a recognized FREQ token: the first regex capture
exists and is exactly DAILY, WEEKLY or MONTHLY. -/
def freqRecognized (rule : Option String) : Bool :=
  match rule with
  | none => false
  | some r =>
    match matchCapture freqPat isUpperAZ r.toList with
    | some f =>
      decide (f = ['D', 'A', 'I', 'L', 'Y']) || decide (f = ['W', 'E', 'E', 'K', 'L', 'Y']) ||
        decide (f = ['M', 'O', 'N', 'T', 'H', 'L', 'Y'])
    | none => false

lemma parseFromCaptures_interval (fv : Option (List Char)) (iv : Nat)
    (h : jsOr1 iv = 1) : (parseFromCaptures fv iv).interval = 1 := by
  cases fv with
  | none => rfl
  | some f =>
    simp only [parseFromCaptures]
    split_ifs <;> simp [h]

/-- Claim C5: the decoder is total and defensive.  Any input without a
recognized FREQ token among DAILY, WEEKLY and MONTHLY (absent rules, the
empty string, and arbitrary malformed text alike) decodes to the none result
with interval one; and for any input whose INTERVAL token is missing, or
matches the digit zero (the only falsy Number a digit capture can produce),
the decoded interval defaults to one. -/
theorem parseRecurrenceRule_defensive (rule : Option String) :
    (freqRecognized rule = false →
      parseRecurrenceRule rule = { frequency := RecurrenceFrequency.none, interval := 1 }) ∧
    (∀ r : String, rule = some r →
      matchCapture intervalPat isDigitCh r.toList = none →
      (parseRecurrenceRule rule).interval = 1) ∧
    (∀ (r : String) (ds : List Char), rule = some r →
      matchCapture intervalPat isDigitCh r.toList = some ds → digitsToNat ds = 0 →
      (parseRecurrenceRule rule).interval = 1) := by
  refine ⟨?_, ?_, ?_⟩
  · intro h
    cases rule with
    | none => rfl
    | some r =>
      show parseRecurrenceChars r.toList = _
      cases hs : r.toList with
      | nil => rfl
      | cons c cs =>
        simp only [freqRecognized] at h
        rw [hs] at h
        rw [parseRecurrenceChars_of_ne_nil _ (by simp)]
        cases hm : matchCapture freqPat isUpperAZ (c :: cs) with
        | none => rfl
        | some f =>
          rw [hm] at h
          have h2 : (decide (f = ['D', 'A', 'I', 'L', 'Y']) ||
              decide (f = ['W', 'E', 'E', 'K', 'L', 'Y']) ||
              decide (f = ['M', 'O', 'N', 'T', 'H', 'L', 'Y'])) = false := h
          simp only [Bool.or_eq_false_iff, decide_eq_false_iff_not] at h2
          simp only [parseFromCaptures]
          rw [if_neg h2.1.1, if_neg h2.1.2, if_neg h2.2]
  · intro r hr hiv
    subst hr
    show (parseRecurrenceChars r.toList).interval = 1
    cases hs : r.toList with
    | nil => rfl
    | cons c cs =>
      rw [hs] at hiv
      rw [parseRecurrenceChars_of_ne_nil _ (by simp)]
      refine parseFromCaptures_interval _ _ ?_
      unfold parseIntervalValue
      rw [hiv]
      rfl
  · intro r ds hr hiv hz
    subst hr
    show (parseRecurrenceChars r.toList).interval = 1
    cases hs : r.toList with
    | nil => rfl
    | cons c cs =>
      rw [hs] at hiv
      rw [parseRecurrenceChars_of_ne_nil _ (by simp)]
      refine parseFromCaptures_interval _ _ ?_
      unfold parseIntervalValue
      rw [hiv]
      show jsOr1 (digitsToNat ds) = 1
      rw [hz]
      rfl

/-- Witness for claim C5: an unrecognized YEARLY rule decodes to none, a rule
without an INTERVAL token and a rule with INTERVAL zero decode with interval
one. -/
theorem parseRecurrenceRule_defensive_witness :
    parseRecurrenceRule (some "RRULE:FREQ=YEARLY;INTERVAL=6") =
      { frequency := RecurrenceFrequency.none, interval := 1 } ∧
    (parseRecurrenceRule (some "RRULE:FREQ=DAILY")).interval = 1 ∧
    (parseRecurrenceRule (some "RRULE:FREQ=DAILY;INTERVAL=0")).interval = 1 :=
  ⟨(parseRecurrenceRule_defensive (some "RRULE:FREQ=YEARLY;INTERVAL=6")).1 (by decide),
   (parseRecurrenceRule_defensive (some "RRULE:FREQ=DAILY")).2.1 _ rfl (by decide),
   (parseRecurrenceRule_defensive (some "RRULE:FREQ=DAILY;INTERVAL=0")).2.2 _ ['0'] rfl
     (by decide) (by decide)⟩

/-- The recurrence decoded by openEditComposer from the event being edited:
the first element of the recurrence list, when any. -/
def openEditDraftRecurrence (event : CalendarEvent) : ParsedRecurrence :=
  parseRecurrenceRule (event.recurrence.bind List.head?)

/-- The draft populated by openEditComposer, restricted to its recurrence
fields (the other fields come from the event text and timing). -/
def editDraftOf (event : CalendarEvent) (base : NewEventState) : NewEventState :=
  { base with
    recurrenceFrequency := (openEditDraftRecurrence event).frequency,
    recurrenceInterval := (openEditDraftRecurrence event).interval }

/-- The recurrenceRule computed by the PUT route from the submitted draft
payload. -/
def putRecurrenceRule (draft : NewEventState) : Option String :=
  buildRecurrenceRule (recurrencePayload draft)

/-- The recurrence property of the events.patch request body built by
updateEvent: a singleton list when a rule is present, the explicit JSON null
otherwise.  The property is always present in the body. -/
def updateEventRecurrence (recurrenceRule : Option String) : Option (List String) :=
  recurrenceRule.map fun rr => [rr]

/-- The effect of events.patch on the stored master: a patch whose body lists
the recurrence property overwrites it, and the explicit null clears it. -/
def applyUpdatePatch (master : CalendarEvent) (recurrence : Option (List String)) :
    CalendarEvent :=
  { master with recurrence := recurrence }

/-- Claim C10: every update request carries a recurrence derived from the
draft; for an expanded series occurrence (whose resource has no recurrence
list) the edit draft decodes to frequency none, so the PUT carries the null
rule and patching the master clears its recurrence instead of leaving it
unchanged. -/
theorem updateSubmit_clears_series_recurrence (event master : CalendarEvent)
    (base : NewEventState) (rs : List String)
    (hocc : event.recurrence = Option.none)
    (hm : master.recurrence = some rs) :
    putRecurrenceRule (editDraftOf event base) = Option.none ∧
    (applyUpdatePatch master
        (updateEventRecurrence (putRecurrenceRule (editDraftOf event base)))).recurrence =
      Option.none ∧
    (applyUpdatePatch master
        (updateEventRecurrence (putRecurrenceRule (editDraftOf event base)))).recurrence ≠
      master.recurrence := by
  have h1 : openEditDraftRecurrence event =
      { frequency := RecurrenceFrequency.none, interval := 1 } := by
    simp [openEditDraftRecurrence, hocc, parseRecurrenceRule]
  have h2 : putRecurrenceRule (editDraftOf event base) = Option.none := by
    simp [putRecurrenceRule, editDraftOf, h1, recurrencePayload, buildRecurrenceRule]
  refine ⟨h2, ?_, ?_⟩ <;>
    simp [applyUpdatePatch, updateEventRecurrence, h2, hm]

/-- Witness for claim C10: editing an occurrence of S1 while the master holds
a weekly rule clears the rule. -/
theorem updateSubmit_clears_series_recurrence_witness :
    putRecurrenceRule (editDraftOf sampleFutureTarget sampleToggleDraft) = Option.none ∧
    (applyUpdatePatch
        { id := "S1", recurringEventId := none, start := none
          recurrence := some ["RRULE:FREQ=WEEKLY;INTERVAL=1"] }
        (updateEventRecurrence
          (putRecurrenceRule (editDraftOf sampleFutureTarget sampleToggleDraft)))).recurrence =
      Option.none :=
  ⟨(updateSubmit_clears_series_recurrence sampleFutureTarget
      { id := "S1", recurringEventId := none, start := none
        recurrence := some ["RRULE:FREQ=WEEKLY;INTERVAL=1"] }
      sampleToggleDraft ["RRULE:FREQ=WEEKLY;INTERVAL=1"] rfl rfl).1,
   (updateSubmit_clears_series_recurrence sampleFutureTarget
      { id := "S1", recurringEventId := none, start := none
        recurrence := some ["RRULE:FREQ=WEEKLY;INTERVAL=1"] }
      sampleToggleDraft ["RRULE:FREQ=WEEKLY;INTERVAL=1"] rfl rfl).2.1⟩

end ProductivityApp
